import Mathlib

/-!
Verification of the `fetcher` HTTP client (src/fetcher.ts) against its
behavioural specification.

The dispatch routine `Fetcher.request` is shallowly embedded as a pure
function.  The platform capabilities it consumes (the `fetch` transport,
WHATWG `URL` construction/resolution, `JSON.parse`) are modelled as fields
of an `Env` record, mirroring the spec's treatment of them as external
collaborators; the platform's *string encoders* (`encodeURIComponent`,
`URLSearchParams` serialization, `JSON.stringify`) are implemented
concretely below so that encoding claims are meaningful.

JavaScript values reaching the API are modelled by `JsValue` (primitives
and one level of string-keyed records, which is the domain exercised by
the payload/param/header paths of the source).  JavaScript truthiness,
which drives the source's `||` fallbacks and `if (data)` guards, is
modelled explicitly by `jsTruthy` / `jsOrStr` / `jsTruthyNat`.
-/

/-- Primitive JavaScript values (null, booleans, numbers, strings).
Numbers are modelled as integers: no claim exercises non-integral or NaN
arithmetic. -/
inductive JsPrim where
  | pNull
  | pBool (b : Bool)
  | pNum (n : Int)
  | pStr (s : String)
deriving Repr, DecidableEq

/-- JavaScript values as they reach the fetcher API: a primitive or a
plain record with primitive fields (the shape consumed by
`URLSearchParams` and produced for JSON bodies in the source). -/
inductive JsValue where
  | vPrim (p : JsPrim)
  | vObj (fields : List (String × JsPrim))
deriving Repr, DecidableEq

/-- JavaScript truthiness of a primitive: `null`, `false`, `0` and `""`
are falsy. -/
def JsPrim.truthy : JsPrim → Bool
  | .pNull => false
  | .pBool b => b
  | .pNum n => n != 0
  | .pStr s => !s.isEmpty

/-- JavaScript truthiness of a value: objects are always truthy. -/
def jsTruthy : JsValue → Bool
  | .vPrim p => p.truthy
  | .vObj _ => true

/-- JavaScript `String(p)` on a primitive, as used by the
`URLSearchParams` record initializer. -/
def JsPrim.asString : JsPrim → String
  | .pNull => "null"
  | .pBool b => cond b "true" "false"
  | .pNum n => toString n
  | .pStr s => s

/-- The truthy-or fallback `a || b` on optional strings: an absent or
empty string falls through to `b` (models lines 42 and 110-113 of the
source, where `""` and `undefined` are both falsy). -/
def jsOrStr (a b : Option String) : Option String :=
  match a with
  | some s => if s.isEmpty then b else some s
  | none => b

/-- Truthiness of an optional number (`undefined` and `0` are falsy). -/
def jsTruthyNat : Option Nat → Bool
  | some n => n != 0
  | none => false

/-- The truthy-or fallback `a || b` on optional numbers. -/
def jsOrNat (a b : Option Nat) : Option Nat :=
  if jsTruthyNat a then a else b

/-- Uppercase hexadecimal digit, for percent-escapes. -/
def hexDigitUpper (n : Nat) : Char :=
  if n < 10 then Char.ofNat (48 + n) else Char.ofNat (55 + n)

/-- Lowercase hexadecimal digit, for JSON `\u00xx` escapes. -/
def hexDigitLower (n : Nat) : Char :=
  if n < 10 then Char.ofNat (48 + n) else Char.ofNat (87 + n)

/-- UTF-8 encoding of a character, as the list of its byte values. -/
def utf8Bytes (c : Char) : List Nat :=
  let n := c.toNat
  if n < 0x80 then [n]
  else if n < 0x800 then [0xC0 + n / 0x40, 0x80 + n % 0x40]
  else if n < 0x10000 then
    [0xE0 + n / 0x1000, 0x80 + (n / 0x40) % 0x40, 0x80 + n % 0x40]
  else
    [0xF0 + n / 0x40000, 0x80 + (n / 0x1000) % 0x40,
      0x80 + (n / 0x40) % 0x40, 0x80 + n % 0x40]

/-- Percent-escape of one byte (`%XX`, uppercase hex). -/
def percentEscapeByte (b : Nat) : String :=
  "%" ++ String.singleton (hexDigitUpper (b / 16)) ++ String.singleton (hexDigitUpper (b % 16))

/-- Characters left unescaped by the ECMAScript `encodeURIComponent`
primitive: ASCII alphanumerics and `- _ . ! ~ * ' ( )`. -/
def isUriUnreserved (c : Char) : Bool :=
  c.isAlphanum ||
    (let n := c.toNat
     n = 45 || n = 95 || n = 46 || n = 33 || n = 126 || n = 42 || n = 39 || n = 40 || n = 41)

/-- Model of the ECMAScript `encodeURIComponent` primitive: unreserved
characters pass through, every other character is replaced by the
percent-escapes of its UTF-8 bytes. -/
def encodeURIComponent (s : String) : String :=
  s.data.foldl
    (fun acc c =>
      acc ++ (if isUriUnreserved c then String.singleton c
              else String.join ((utf8Bytes c).map percentEscapeByte)))
    ""

/-- Characters kept verbatim by the `application/x-www-form-urlencoded`
serializer (`URLSearchParams.toString`): ASCII alphanumerics and
`* - . _`. -/
def isFormSafe (c : Char) : Bool :=
  c.isAlphanum || (let n := c.toNat; n = 42 || n = 45 || n = 46 || n = 95)

/-- One character of the `application/x-www-form-urlencoded` serializer:
space becomes `+`, safe characters pass through, the rest are
percent-escaped bytewise. -/
def formEncodeChar (c : Char) : String :=
  if c = ' ' then "+"
  else if isFormSafe c then String.singleton c
  else String.join ((utf8Bytes c).map percentEscapeByte)

/-- The `application/x-www-form-urlencoded` serializer on a string. -/
def formEncode (s : String) : String :=
  s.data.foldl (fun acc c => acc ++ formEncodeChar c) ""

/-- Serialization of key/value pairs as done by
`URLSearchParams.toString` (also the serializer behind a structured
URL's search component). -/
def formPairsToString (ps : List (String × String)) : String :=
  String.intercalate "&" (ps.map fun p => formEncode p.1 ++ "=" ++ formEncode p.2)

/-- Numeric value of a hexadecimal digit character, if it is one. -/
def hexVal (c : Char) : Option Nat :=
  let n := c.toNat
  if 48 ≤ n && n ≤ 57 then some (n - 48)
  else if 65 ≤ n && n ≤ 70 then some (n - 55)
  else if 97 ≤ n && n ≤ 102 then some (n - 87)
  else none

/-- Byte stream of a form-urlencoded token: `+` is a space, `%XX` is a
byte, other characters contribute their UTF-8 bytes (the decoding half of
the `URLSearchParams` string initializer). -/
def percentDecodeBytes : List Char → List Nat
  | [] => []
  | '%' :: h1 :: h2 :: rest =>
    match hexVal h1, hexVal h2 with
    | some a, some b => (a * 16 + b) :: percentDecodeBytes rest
    | _, _ => utf8Bytes '%' ++ percentDecodeBytes (h1 :: h2 :: rest)
  | '+' :: rest => 32 :: percentDecodeBytes rest
  | c :: rest => utf8Bytes c ++ percentDecodeBytes rest

/-- Fuelled UTF-8 decoder (fuel bounds the number of decoded characters;
malformed sequences decode as the replacement-style fallback of
`Char.ofNat`). -/
def utf8Decode : Nat → List Nat → List Char
  | 0, _ => []
  | _, [] => []
  | fuel + 1, b :: rest =>
    if b < 0x80 then Char.ofNat b :: utf8Decode fuel rest
    else if 0xC0 ≤ b && b < 0xE0 then
      match rest with
      | c1 :: rest1 => Char.ofNat ((b - 0xC0) * 0x40 + (c1 - 0x80)) :: utf8Decode fuel rest1
      | [] => [Char.ofNat b]
    else if 0xE0 ≤ b && b < 0xF0 then
      match rest with
      | c1 :: c2 :: rest2 =>
        Char.ofNat ((b - 0xE0) * 0x1000 + (c1 - 0x80) * 0x40 + (c2 - 0x80)) ::
          utf8Decode fuel rest2
      | _ => [Char.ofNat b]
    else
      match rest with
      | c1 :: c2 :: c3 :: rest3 =>
        Char.ofNat ((b - 0xF0) * 0x40000 + (c1 - 0x80) * 0x1000 +
            (c2 - 0x80) * 0x40 + (c3 - 0x80)) :: utf8Decode fuel rest3
      | _ => [Char.ofNat b]

/-- Form-urlencoded decoding of one token. -/
def formDecode (s : String) : String :=
  let bs := percentDecodeBytes s.data
  String.mk (utf8Decode bs.length bs)

/-- Split a character stream at the first `=`: the key, and the value
when a `=` was present (the value keeps any later `=`). -/
def breakEq : List Char → List Char × Option (List Char)
  | [] => ([], none)
  | '=' :: rest => ([], some rest)
  | c :: rest =>
    let kv := breakEq rest
    (c :: kv.1, kv.2)

/-- Split a character stream into its `&`-separated pieces. -/
def splitAmp : List Char → List (List Char)
  | [] => [[]]
  | '&' :: rest => [] :: splitAmp rest
  | c :: rest =>
    match splitAmp rest with
    | [] => [[c]]
    | g :: gs => (c :: g) :: gs

/-- One `k=v` piece of a query string, as read by the `URLSearchParams`
string initializer (first `=` separates, the rest belongs to the value;
an empty piece is skipped). -/
def parseQSPair (cs : List Char) : Option (String × String) :=
  if cs.isEmpty then none
  else
    let kv := breakEq cs
    some (formDecode (String.mk kv.1), formDecode (String.mk (kv.2.getD [])))

/-- The `URLSearchParams` string initializer: an optional leading `?` is
dropped, pieces are separated by `&`. -/
def parseQS (s : String) : List (String × String) :=
  let cs :=
    match s.data with
    | '?' :: rest => rest
    | cs => cs
  (splitAmp cs).filterMap parseQSPair

/-- Model of the `URLSearchParams` constructor on our value domain: a
plain record contributes its fields with stringified values, a string is
parsed as a form-urlencoded query, other primitives have no enumerable
properties and contribute nothing. -/
def urlSearchParamsInit : JsValue → List (String × String)
  | .vObj fs => fs.map fun p => (p.1, p.2.asString)
  | .vPrim (.pStr s) => parseQS s
  | .vPrim _ => []

/-- Model of `new URLSearchParams(data).toString()` (line 104 of the
source). -/
def formSerializeValue (v : JsValue) : String :=
  formPairsToString (urlSearchParamsInit v)

/-- JSON escaping of one character inside a string literal, as performed
by `JSON.stringify`. -/
def jsonEscapeChar (c : Char) : String :=
  if c = '"' then "\\\""
  else if c = '\\' then "\\\\"
  else if c.toNat = 10 then "\\n"
  else if c.toNat = 13 then "\\r"
  else if c.toNat = 9 then "\\t"
  else if c.toNat = 8 then "\\b"
  else if c.toNat = 12 then "\\f"
  else if c.toNat < 32 then
    "\\u00" ++ String.singleton (hexDigitLower (c.toNat / 16)) ++
      String.singleton (hexDigitLower (c.toNat % 16))
  else String.singleton c

/-- A JSON string literal for `s`. -/
def jsonQuote (s : String) : String :=
  "\"" ++ String.join (s.data.map jsonEscapeChar) ++ "\""

/-- JSON text of a primitive. -/
def JsPrim.json : JsPrim → String
  | .pNull => "null"
  | .pBool b => cond b "true" "false"
  | .pNum n => toString n
  | .pStr s => jsonQuote s

/-- Model of `JSON.stringify(data)` (line 105 of the source) on our value
domain. -/
def jsonStringifyJs : JsValue → String
  | .vPrim p => p.json
  | .vObj fs =>
    "\x7b" ++
      String.intercalate "," (fs.map fun p => jsonQuote p.1 ++ ":" ++ p.2.json) ++
      "\x7d"

/-- JavaScript object-spread merge `\x7b ...a, ...b \x7d` on string-keyed
records represented as association lists: keys of `a` keep their position
(taking `b`'s value when `b` also has the key), keys only in `b` are
appended in `b`'s order. -/
def spreadMerge (a b : List (String × String)) : List (String × String) :=
  (a.map fun p =>
    match b.lookup p.1 with
    | some v => (p.1, v)
    | none => p) ++
  b.filter fun p => (a.lookup p.1).isNone

/-- A structured WHATWG URL as the dispatcher observes it: an opaque
serialized part up to the search component, plus the list of search
parameters (`URL.searchParams`).  Produced by the environment's URL
constructor/resolver. -/
structure URLRec where
  base : String
  query : List (String × String)
deriving Repr, DecidableEq

/-- `URL.toString()`: the search parameters, when present, are serialized
by the form-urlencoded serializer behind `searchParams`. -/
def urlToString (u : URLRec) : String :=
  u.base ++ (if u.query.isEmpty then "" else "?" ++ formPairsToString u.query)

/-- The `fetchUrl` variable of the source (line 43): either a plain
string or a structured URL. -/
inductive FetchTarget where
  | str (s : String)
  | url (u : URLRec)
deriving Repr, DecidableEq

/-- `fetchUrl.toString()` as passed to the transport (line 115). -/
def FetchTarget.asString : FetchTarget → String
  | .str s => s
  | .url u => urlToString u

/-- The two content types recognized by `FetcherConfig.contentType`. -/
inductive ContentType where
  | json
  | form
deriving Repr, DecidableEq

/-- The header value of a content type. -/
def ContentType.str : ContentType → String
  | .json => "application/json"
  | .form => "application/x-www-form-urlencoded"

/-- The `FetcherConfig` record of the source, with every field optional
(absent = `undefined`).  Headers and params are string-keyed records,
modelled as association lists; the transform hooks and the status
validator are modelled as Lean functions. -/
structure FetcherConfig where
  baseUrl : Option String := none
  contentType : Option ContentType := none
  headers : Option (List (String × String)) := none
  params : Option (List (String × String)) := none
  timeout : Option Nat := none
  transformRequest : Option (JsValue → List (String × String) → JsValue) := none
  transformResponse : Option (JsValue → JsValue) := none
  validateStatus : Option (Nat → Bool) := none
  token : Option String := none

/-- The four HTTP methods of `FetchMethod`. -/
inductive FetchMethod where
  | GET
  | POST
  | PUT
  | DELETE
deriving Repr, DecidableEq

/-- The options record handed to the transport (lines 96-113): method,
merged headers, optional serialized body, and the timeout scheduled on
the abort controller (if any). -/
structure FetchOptions where
  method : FetchMethod
  headers : List (String × String)
  body : Option String := none
  timeoutMs : Option Nat := none
deriving Repr, DecidableEq

/-- The transport's response handle: status, status text, response
headers and the raw body text (the `json()` / `text()` readers are
derived from the body text by the dispatcher's environment). -/
structure RawResponse where
  status : Nat
  statusText : String
  headers : List (String × String)
  bodyText : String
deriving Repr, DecidableEq

/-- The execution environment: whether a `fetch` transport exists, the
WHATWG URL constructor (`new URL(url)`) and resolver
(`new URL(url, base)`), the platform JSON parser, and the transport
itself.  A transport failure (network error or abort) is an `error`
carrying the platform's message. -/
structure Env where
  fetchAvailable : Bool
  parseURL : String → Option URLRec
  resolveURL : String → String → Option URLRec
  jsonParse : String → Option JsValue
  fetch : String → FetchOptions → Except String RawResponse

/-- The error taxonomy of the dispatcher. -/
inductive FetchError where
  | fetchUndefined
  | urlTypeError (url : String)
  | invalidUrl (url : String)
  | transportError (msg : String)
  | statusError (status : Nat)
  | decodeError
deriving Repr, DecidableEq

/-- The message carried by each error.  The `fetchUndefined`,
`invalidUrl` and `statusError` messages are the literal strings thrown by
the source; the remaining messages are platform-defined and modelled
nominally. -/
def FetchError.message : FetchError → String
  | .fetchUndefined =>
    "fetch is not defined. If you are running this on the backend, make sure to install a fetch-compatible library."
  | .urlTypeError url => "Failed to construct URL: " ++ url
  | .invalidUrl url => "Invalid URL: " ++ url
  | .transportError msg => msg
  | .statusError status => "Request failed with status code " ++ toString status
  | .decodeError => "Failed to decode response body"

/-- The response envelope (`FetcherResponse`), lines 18-25 and 138-145 of
the source. -/
structure FetcherResponse where
  data : JsValue
  status : Nat
  statusText : String
  headers : List (String × String)
  config : FetcherConfig
  request : RawResponse

/-- The effective base URL: `config.baseUrl || Fetcher.defaults.baseUrl
|| ''` (line 42). -/
def effBaseUrl (defaults config : FetcherConfig) : String :=
  (jsOrStr config.baseUrl defaults.baseUrl).getD ""

/-- The effective content type: `config.contentType ||
Fetcher.defaults.contentType || 'application/json'` (lines 73-74; both
recognized values are truthy strings, so the fallback is by presence). -/
def effContentType (defaults config : FetcherConfig) : ContentType :=
  ((config.contentType).or defaults.contentType).getD .json

/-- The effective timeout scheduled on the abort controller, if any:
`if (config.timeout || Fetcher.defaults.timeout) \x7b const timeout =
config.timeout || Fetcher.defaults.timeout; setTimeout(...) \x7d`
(lines 110-113). -/
def effTimeout (defaults config : FetcherConfig) : Option Nat :=
  if jsTruthyNat config.timeout || jsTruthyNat defaults.timeout then
    jsOrNat config.timeout defaults.timeout
  else none

/-- The built-in status validator: `(status) => status >= 200 && status <
300` (line 120). -/
def defaultValidateStatus (status : Nat) : Bool :=
  decide (200 ≤ status) && decide (status < 300)

/-- The effective status validator: `config.validateStatus ||
Fetcher.defaults.validateStatus || ((status) => status >= 200 && status <
300)` (lines 117-120; functions are truthy, so the fallback is by
presence). -/
def effValidateStatus (defaults config : FetcherConfig) : Nat → Bool :=
  ((config.validateStatus).or defaults.validateStatus).getD defaultValidateStatus

/-- The merged query parameters `\x7b ...Fetcher.defaults.params,
...config.params \x7d` (line 58). -/
def effParams (defaults config : FetcherConfig) : List (String × String) :=
  spreadMerge (defaults.params.getD []) (config.params.getD [])

/-- String prefix test over character data (the data-level equivalent of
`String.startsWith`, kept elementary so proofs and witnesses can
evaluate it). -/
def strStarts (s pre : String) : Bool :=
  pre.data.isPrefixOf s.data

/-- The absolute-URL test `/^(https?|ftp):\/\//.test(url)` (line 45). -/
def isAbsoluteUrl (url : String) : Bool :=
  strStarts url "http://" || strStarts url "https://" || strStarts url "ftp://"

/-- URL resolution, lines 42-55 of the source: an absolute URL is parsed
as given (a parse failure propagates as the platform's TypeError); a
relative URL with a truthy effective base URL is resolved against it,
failing with the source's "Invalid URL" error; otherwise the literal
string is kept. -/
def resolveTarget (env : Env) (defaults config : FetcherConfig) (url : String) :
    Except FetchError FetchTarget :=
  let baseUrl := effBaseUrl defaults config
  if isAbsoluteUrl url then
    match env.parseURL url with
    | some u => .ok (.url u)
    | none => .error (.urlTypeError url)
  else if !baseUrl.isEmpty then
    match env.resolveURL url baseUrl with
    | some u => .ok (.url u)
    | none => .error (.invalidUrl url)
  else .ok (.str url)

/-- `.slice(0, -1)`: drop the last character (line 65). -/
def sliceDropLast (s : String) : String :=
  String.mk s.data.dropLast

/-- The query-string accumulation loop of lines 60-65: `queryString +=
`$\x7bkey\x7d=$\x7bencodeURIComponent(value)\x7d&`` over the merged
parameters, then `.slice(0, -1)`. -/
def buildQueryString (ps : List (String × String)) : String :=
  sliceDropLast
    (ps.foldl (fun acc p => acc ++ p.1 ++ "=" ++ encodeURIComponent p.2 ++ "&") "")

/-- Query-parameter appending, lines 57-71 of the source: when either
params record is present, the spread-merged parameters are appended — as
a fresh `?`-suffix on a plain string target, or onto `searchParams` of a
structured target (preserving parameters already present). -/
def appendParams (defaults config : FetcherConfig) (t : FetchTarget) : FetchTarget :=
  if config.params.isSome || defaults.params.isSome then
    let urlParams := effParams defaults config
    match t with
    | .str s => .str (s ++ "?" ++ buildQueryString urlParams)
    | .url u => .url { u with query := u.query ++ urlParams }
  else t

/-- Header merging, lines 73-85 of the source: default headers, then
per-call headers, then a forced `Content-Type` entry; a truthy per-call
token finally overwrites `Authorization` with its bearer form. -/
def mergeHeaders (defaults config : FetcherConfig) : List (String × String) :=
  let contentType := effContentType defaults config
  let headers :=
    spreadMerge (spreadMerge (defaults.headers.getD []) (config.headers.getD []))
      [("Content-Type", contentType.str)]
  match config.token with
  | some tok =>
    if tok.isEmpty then headers
    else spreadMerge headers [("Authorization", "Bearer " ++ tok)]
  | none => headers

/-- The request transform step, lines 87-94 of the source: applied only
when the payload is truthy and a transform is configured (per-call else
default), replacing the payload. -/
def applyRequestTransform (defaults config : FetcherConfig)
    (headers : List (String × String)) (data : Option JsValue) : Option JsValue :=
  match data with
  | some d =>
    if jsTruthy d then
      match (config.transformRequest).or defaults.transformRequest with
      | some f => some (f d headers)
      | none => some d
    else some d
  | none => none

/-- Body construction, lines 101-106 of the source: a truthy payload is
serialized as form data under the form-urlencoded content type and as
JSON text otherwise; a falsy or absent payload yields no body. -/
def mkBody (contentType : ContentType) (data : Option JsValue) : Option String :=
  match data with
  | some d =>
    if jsTruthy d then
      some (match contentType with
            | .form => formSerializeValue d
            | .json => jsonStringifyJs d)
    else none
  | none => none

/-- Construction of the transport call, lines 42-113 of the source in
their original order: resolve the target, append the merged query
parameters, merge the headers, apply the request transform, serialize
the body, and record the scheduled timeout. -/
def buildRequest (env : Env) (defaults : FetcherConfig) (method : FetchMethod)
    (url : String) (data : Option JsValue) (config : FetcherConfig) :
    Except FetchError (String × FetchOptions) :=
  match resolveTarget env defaults config url with
  | .error e => .error e
  | .ok t =>
    let t2 := appendParams defaults config t
    let headers := mergeHeaders defaults config
    let data2 := applyRequestTransform defaults config headers data
    .ok (t2.asString,
      { method := method
        headers := headers
        body := mkBody (effContentType defaults config) data2
        timeoutMs := effTimeout defaults config })

/-- ASCII lowercasing over character data (the data-level equivalent of
`String.toLower`). -/
def strLower (s : String) : String :=
  String.mk (s.data.map Char.toLower)

/-- Case-insensitive response-header read, `response.headers.get(name)`
(the Fetch `Headers` object is case-insensitive). -/
def headersGet (hs : List (String × String)) (name : String) : Option String :=
  (hs.find? fun p => strLower p.1 == strLower name).map Prod.snd

/-- Substring test, modelling `String.prototype.includes`. -/
def containsSub (s pat : String) : Bool :=
  (List.range (s.data.length + 1)).any fun i => pat.data.isPrefixOf (s.data.drop i)

/-- Whether the response declares a JSON body:
`response.headers.get('content-type')?.includes('application/json')`
(lines 126-128; an absent header is `undefined`, hence falsy). -/
def respIsJson (resp : RawResponse) : Bool :=
  match headersGet resp.headers "content-type" with
  | some v => containsSub v "application/json"
  | none => false

/-- Body decoding, lines 126-130 of the source: a declared JSON body goes
through the platform JSON parser (a parse failure propagates), any other
body is read as text. -/
def decodeBody (env : Env) (resp : RawResponse) : Except FetchError JsValue :=
  if respIsJson resp then
    match env.jsonParse resp.bodyText with
    | some v => .ok v
    | none => .error .decodeError
  else .ok (.vPrim (.pStr resp.bodyText))

/-- The response transform step, lines 132-136 of the source. -/
def applyResponseTransform (defaults config : FetcherConfig) (body : JsValue) : JsValue :=
  match (config.transformResponse).or defaults.transformResponse with
  | some f => f body
  | none => body

/-- `Object.fromEntries(response.headers.entries())` (line 142): later
entries overwrite earlier ones in place. -/
def fromEntries (hs : List (String × String)) : List (String × String) :=
  hs.foldl (fun acc p => spreadMerge acc [p]) []

namespace Fetcher

/-- The dispatch routine `Fetcher.request`, lines 30-146 of the source,
with the process-wide `Fetcher.defaults` passed explicitly and the
platform capabilities supplied by `env`.  The optional `config` argument
defaults to the empty record as in the source signature. -/
def request (env : Env) (defaults : FetcherConfig) (method : FetchMethod)
    (url : String) (data : Option JsValue) (cfgOpt : Option FetcherConfig) :
    Except FetchError FetcherResponse :=
  let config := cfgOpt.getD {}
  if !env.fetchAvailable then .error .fetchUndefined
  else
    match buildRequest env defaults method url data config with
    | .error e => .error e
    | .ok (u, opts) =>
      match env.fetch u opts with
      | .error msg => .error (.transportError msg)
      | .ok resp =>
        if effValidateStatus defaults config resp.status then
          match decodeBody env resp with
          | .error e => .error e
          | .ok body =>
            .ok { data := applyResponseTransform defaults config body
                  status := resp.status
                  statusText := resp.statusText
                  headers := fromEntries resp.headers
                  config := config
                  request := resp }
        else .error (.statusError resp.status)

/-- `Fetcher.get` (lines 148-153): forwards with method GET and no
payload. -/
def get (env : Env) (defaults : FetcherConfig) (url : String)
    (cfgOpt : Option FetcherConfig) : Except FetchError FetcherResponse :=
  request env defaults .GET url none cfgOpt

/-- `Fetcher.post` (lines 155-161): forwards with method POST. -/
def post (env : Env) (defaults : FetcherConfig) (url : String)
    (data : Option JsValue) (cfgOpt : Option FetcherConfig) :
    Except FetchError FetcherResponse :=
  request env defaults .POST url data cfgOpt

/-- `Fetcher.put` (lines 163-169): forwards with method PUT. -/
def put (env : Env) (defaults : FetcherConfig) (url : String)
    (data : Option JsValue) (cfgOpt : Option FetcherConfig) :
    Except FetchError FetcherResponse :=
  request env defaults .PUT url data cfgOpt

/-- `Fetcher.delete` (lines 171-176): forwards with method DELETE and no
payload. -/
def delete (env : Env) (defaults : FetcherConfig) (url : String)
    (cfgOpt : Option FetcherConfig) : Except FetchError FetcherResponse :=
  request env defaults .DELETE url none cfgOpt

end Fetcher

/-- Modelled from the spec: the "effective configuration", the
field-by-field merge of the per-call config over the process-wide
defaults over the built-in fallbacks (spec glossary and section 3).  It
is compared against what the dispatcher actually echoes in the
envelope. -/
def effectiveConfig (defaults config : FetcherConfig) : FetcherConfig :=
  { baseUrl := (config.baseUrl).or defaults.baseUrl
    contentType := ((config.contentType).or defaults.contentType).or (some .json)
    headers := (config.headers).or defaults.headers
    params := (config.params).or defaults.params
    timeout := (config.timeout).or defaults.timeout
    transformRequest := (config.transformRequest).or defaults.transformRequest
    transformResponse := (config.transformResponse).or defaults.transformResponse
    validateStatus :=
      ((config.validateStatus).or defaults.validateStatus).or (some defaultValidateStatus)
    token := (config.token).or defaults.token }

/-- Two strings with equal character data are equal. -/
theorem strExt {a b : String} (h : a.data = b.data) : a = b := by
  cases a
  cases b
  exact congrArg String.mk h

/-- `List.lookup` distributes over append, first hit wins. -/
theorem lookup_append (l₁ l₂ : List (String × String)) (k : String) :
    (l₁ ++ l₂).lookup k = (l₁.lookup k).or (l₂.lookup k) := by
  induction l₁ with
  | nil => simp [List.lookup]
  | cons p rest ih =>
    rcases p with ⟨k', v'⟩
    cases hk : (k == k') <;> simp [List.lookup, hk, ih]

/-- Lookup in the override part of `spreadMerge`: keys are those of `a`,
values are overridden by `b` where `b` has the key. -/
theorem lookup_override (a b : List (String × String)) (k : String) :
    ((a.map fun p =>
        match b.lookup p.1 with
        | some v => (p.1, v)
        | none => p).lookup k) =
      (a.lookup k).map fun v => (b.lookup k).getD v := by
  induction a with
  | nil => simp [List.lookup]
  | cons p rest ih =>
    rcases p with ⟨k', v'⟩
    by_cases hk : k = k'
    · subst hk
      cases hb : b.lookup k <;> simp [List.lookup_cons, hb]
    · cases hb : b.lookup k' <;>
        simp [List.lookup_cons, beq_false_of_ne hk, ih, hb]

/-- Lookup in the fresh-keys part of `spreadMerge`: for a key absent from
`a`, filtering `b` by absence-from-`a` is invisible. -/
theorem lookup_filter_fresh (a b : List (String × String)) (k : String)
    (h : a.lookup k = none) :
    ((b.filter fun p => (a.lookup p.1).isNone).lookup k) = b.lookup k := by
  induction b with
  | nil => simp
  | cons p rest ih =>
    rcases p with ⟨k', v'⟩
    by_cases hk : k = k'
    · subst hk
      simp [List.filter_cons, h, List.lookup_cons]
    · cases ha : (a.lookup k').isNone <;>
        simp [List.filter_cons, ha, List.lookup_cons, beq_false_of_ne hk, ih]

/-- The defining property of `spreadMerge` as a mapping: `b`'s value wins
where both records have the key, otherwise whichever record has it. -/
theorem spreadMerge_lookup (a b : List (String × String)) (k : String) :
    (spreadMerge a b).lookup k =
      match a.lookup k with
      | some v => some ((b.lookup k).getD v)
      | none => b.lookup k := by
  unfold spreadMerge
  rw [lookup_append, lookup_override]
  cases ha : a.lookup k with
  | some v => simp
  | none => simp [lookup_filter_fresh _ _ _ ha]

/-- Keys of the override part of `spreadMerge` are exactly the keys of
`a`. -/
theorem keys_override (a b : List (String × String)) :
    ((a.map fun p =>
        match b.lookup p.1 with
        | some v => (p.1, v)
        | none => p).map Prod.fst) = a.map Prod.fst := by
  induction a with
  | nil => rfl
  | cons p rest ih =>
    cases hb : b.lookup p.1 <;> simp [hb, ih]

/-- A key is absent from an association list iff its lookup fails. -/
theorem lookup_eq_none_iff (l : List (String × String)) (k : String) :
    l.lookup k = none ↔ k ∉ l.map Prod.fst := by
  induction l with
  | nil => simp [List.lookup]
  | cons p rest ih =>
    rcases p with ⟨k', v'⟩
    by_cases hk : k = k'
    · subst hk
      simp [List.lookup_cons]
    · simp [List.lookup_cons, beq_false_of_ne hk, ih, hk]

/-- A successful lookup exhibits a member pair. -/
theorem lookup_mem (l : List (String × String)) (k : String) (v : String)
    (h : l.lookup k = some v) : (k, v) ∈ l := by
  induction l with
  | nil => simp [List.lookup] at h
  | cons p rest ih =>
    rcases p with ⟨k', v'⟩
    by_cases hk : k = k'
    · subst hk
      simp [List.lookup_cons] at h
      simp [h]
    · rw [List.lookup_cons] at h
      rw [beq_false_of_ne hk] at h
      exact List.mem_cons_of_mem _ (ih h)

/-- The keys of a spread merge are the union of the two key sets. -/
theorem spreadMerge_keys_mem (a b : List (String × String)) (k : String) :
    k ∈ (spreadMerge a b).map Prod.fst ↔
      k ∈ a.map Prod.fst ∨ k ∈ b.map Prod.fst := by
  unfold spreadMerge
  rw [List.map_append, keys_override, List.mem_append]
  constructor
  · rintro (h | h)
    · exact Or.inl h
    · right
      rcases List.mem_map.mp h with ⟨p, hp, hpk⟩
      exact List.mem_map.mpr ⟨p, List.mem_of_mem_filter hp, hpk⟩
  · rintro (h | h)
    · exact Or.inl h
    · by_cases ha : k ∈ a.map Prod.fst
      · exact Or.inl ha
      · right
        rcases List.mem_map.mp h with ⟨p, hp, hpk⟩
        refine List.mem_map.mpr ⟨p, List.mem_filter.mpr ⟨hp, ?_⟩, hpk⟩
        rw [hpk, (lookup_eq_none_iff a k).mpr ha]
        rfl

/-- A spread merge of records with duplicate-free keys has
duplicate-free keys. -/
theorem spreadMerge_keys_nodup (a b : List (String × String))
    (ha : (a.map Prod.fst).Nodup) (hb : (b.map Prod.fst).Nodup) :
    ((spreadMerge a b).map Prod.fst).Nodup := by
  unfold spreadMerge
  rw [List.map_append, keys_override]
  refine List.Nodup.append ha (((List.filter_sublist _).map Prod.fst).nodup hb) ?_
  intro k hka hkb
  rcases List.mem_map.mp hkb with ⟨p, hp, hpk⟩
  have hcond := (List.mem_filter.mp hp).2
  rw [hpk] at hcond
  have : a.lookup k = none := by
    cases h : a.lookup k with
    | none => rfl
    | some v => rw [h] at hcond; simp at hcond
  exact (lookup_eq_none_iff a k).mp this hka

/-- One serialized query pair, `key=value` with the value
percent-encoded. -/
def encPair (p : String × String) : String :=
  p.1 ++ "=" ++ encodeURIComponent p.2

/-- `&`-separated join of serialized pieces. -/
def ampJoin : List String → String
  | [] => ""
  | [x] => x
  | x :: y :: rest => x ++ "&" ++ ampJoin (y :: rest)

/-- Character data of the query accumulation loop before the final
`.slice(0, -1)`: each pair contributes `key=value&`. -/
def ampData (ps : List (String × String)) : List Char :=
  (ps.map fun p => (encPair p).data ++ ['&']).flatten

theorem queryFold_data (ps : List (String × String)) (acc : String) :
    (ps.foldl (fun acc p => acc ++ p.1 ++ "=" ++ encodeURIComponent p.2 ++ "&") acc).data =
      acc.data ++ ampData ps := by
  induction ps generalizing acc with
  | nil => simp [ampData]
  | cons p rest ih =>
    simp [List.foldl_cons, ih, ampData, String.data_append, encPair]

theorem ampData_ne_nil (p : String × String) (ps : List (String × String)) :
    ampData (p :: ps) ≠ [] := by
  simp [ampData]

theorem ampJoin_dropLast (ps : List (String × String)) :
    (ampJoin (ps.map encPair)).data = (ampData ps).dropLast := by
  induction ps with
  | nil => simp [ampJoin, ampData]
  | cons p rest ih =>
    cases rest with
    | nil => simp [ampJoin, ampData, String.data_append]
    | cons q rest2 =>
      have hne : ampData (q :: rest2) ≠ [] := ampData_ne_nil q rest2
      calc (ampJoin ((p :: q :: rest2).map encPair)).data
          = (encPair p).data ++ '&' :: (ampJoin ((q :: rest2).map encPair)).data := by
            simp [ampJoin, String.data_append]
        _ = (encPair p).data ++ '&' :: (ampData (q :: rest2)).dropLast := by rw [ih]
        _ = (((encPair p).data ++ ['&']) ++ ampData (q :: rest2)).dropLast := by
            rw [List.dropLast_append_of_ne_nil _ hne]
            simp
        _ = (ampData (p :: q :: rest2)).dropLast := by
            simp [ampData]

/-- The source's query-string loop (append `key=value&` for every pair,
then drop the trailing separator) equals the `&`-separated join of the
percent-encoded pairs. -/
theorem buildQueryString_eq_ampJoin (ps : List (String × String)) :
    buildQueryString ps = ampJoin (ps.map encPair) := by
  apply strExt
  show ((ps.foldl _ "").data).dropLast = _
  rw [queryFold_data, ampJoin_dropLast]
  simp

/-- A deterministic mock environment whose transport echoes the request:
the URL it was invoked with becomes the status text and the request
headers become the response headers; every body parses as JSON null. -/
def envEcho : Env :=
  { fetchAvailable := true
    parseURL := fun s => some { base := s, query := [] }
    resolveURL := fun u b => some { base := b ++ u, query := [] }
    jsonParse := fun _ => some (.vPrim .pNull)
    fetch := fun u opts =>
      .ok { status := 200, statusText := u, headers := opts.headers, bodyText := "ok" } }

/-- A mock environment whose transport always answers 404 with an empty
body, and whose JSON parser fails on every input (so any attempt to
decode a body would be visible as a decode error). -/
def env404 : Env :=
  { fetchAvailable := true
    parseURL := fun s => some { base := s, query := [] }
    resolveURL := fun u b => some { base := b ++ u, query := [] }
    jsonParse := fun _ => none
    fetch := fun _ _ =>
      .ok { status := 404, statusText := "Not Found", headers := [], bodyText := "" } }

/-- C9: `get`, `post`, `put` and `delete` are pure forwarding calls onto
`request`: `get`/`delete` fix the method and omit the payload, `post`/
`put` fix the method; none adds behaviour of its own. -/
theorem method_wrappers_forward (env : Env) (defaults : FetcherConfig) (url : String)
    (data : Option JsValue) (cfgOpt : Option FetcherConfig) :
    Fetcher.get env defaults url cfgOpt = Fetcher.request env defaults .GET url none cfgOpt ∧
    Fetcher.delete env defaults url cfgOpt =
      Fetcher.request env defaults .DELETE url none cfgOpt ∧
    Fetcher.post env defaults url data cfgOpt =
      Fetcher.request env defaults .POST url data cfgOpt ∧
    Fetcher.put env defaults url data cfgOpt =
      Fetcher.request env defaults .PUT url data cfgOpt :=
  ⟨rfl, rfl, rfl, rfl⟩

/-- C10: with a fixed defaults object and a deterministic transport, two
GET calls with identical arguments return structurally identical
envelopes — dispatch is a function of its inputs, the defaults and the
transport's responses. -/
theorem get_deterministic (env : Env) (defaults : FetcherConfig) (url : String)
    (cfgOpt : Option FetcherConfig) (r₁ r₂ : FetcherResponse)
    (h₁ : Fetcher.get env defaults url cfgOpt = .ok r₁)
    (h₂ : Fetcher.get env defaults url cfgOpt = .ok r₂) : r₁ = r₂ := by
  rw [h₁] at h₂
  exact Except.ok.inj h₂

/-- The envelope produced by `envEcho` for a plain GET of an absolute
URL. -/
def echoEnvelope : FetcherResponse :=
  { data := .vPrim .pNull
    status := 200
    statusText := "http://a.com/"
    headers := [("Content-Type", "application/json")]
    config := {}
    request :=
      { status := 200
        statusText := "http://a.com/"
        headers := [("Content-Type", "application/json")]
        bodyText := "ok" } }

theorem get_deterministic_witness :
    Fetcher.get envEcho {} "http://a.com/" none = .ok echoEnvelope ∧
      echoEnvelope = echoEnvelope :=
  ⟨by rfl, get_deterministic envEcho {} "http://a.com/" none echoEnvelope echoEnvelope
    (by rfl) (by rfl)⟩

/-- A defaults object that only sets a timeout. -/
def dfltsTimeout : FetcherConfig := { timeout := some 5 }

/-- C1 (amended): the envelope's `config` field is the per-call config
object exactly as passed in (line 143 of the source), not the merged
effective configuration. -/
theorem envelope_config_is_per_call_config (env : Env) (defaults : FetcherConfig)
    (method : FetchMethod) (url : String) (data : Option JsValue)
    (config : FetcherConfig) (envl : FetcherResponse)
    (h : Fetcher.request env defaults method url data (some config) = .ok envl) :
    envl.config = config := by
  simp only [Fetcher.request, Option.getD_some] at h
  repeat' split at h
  all_goals first
    | exact Except.noConfusion h
    | (cases h; rfl)

theorem envelope_config_is_per_call_config_witness : echoEnvelope.config = {} :=
  envelope_config_is_per_call_config envEcho {} .GET "http://a.com/" none {} echoEnvelope
    (by rfl)

/-- C1 counterexample: with defaults `\x7b timeout: 5 \x7d` and an empty
per-call config, the call returns an envelope whose config has no
timeout, while the effective configuration (per spec) carries timeout 5 —
so the envelope does not hold the effective configuration. -/
theorem config_echo_counterexample :
    (Fetcher.request envEcho dfltsTimeout .GET "http://a.com/" none (some {})).map
        (fun r => r.config.timeout) = .ok none ∧
      (effectiveConfig dfltsTimeout {}).timeout = some 5 ∧
      (none : Option Nat) ≠ some 5 :=
  ⟨by rfl, by rfl, by decide⟩

/-- C2 (amended): per-field precedence follows JavaScript truthiness, not
mere presence.  For `baseUrl` and `timeout` a falsy per-call value (`""`,
`0`) falls through to the default, and a falsy default falls through to
the built-in fallback; for `contentType` and `validateStatus` (whose
values are always truthy) per-call presence wins, then default presence,
then the built-in fallback; the transform hooks follow per-call-else-
default presence; and `params` are not selected whole but merged per
key, the per-call value winning on collisions and default-only keys
surviving. -/
theorem field_precedence_truthy (defaults config : FetcherConfig) :
    (∀ s, config.baseUrl = some s → s.isEmpty = false → effBaseUrl defaults config = s) ∧
    ((config.baseUrl = none ∨ config.baseUrl = some "") →
      ∀ s, defaults.baseUrl = some s → effBaseUrl defaults config = s) ∧
    ((config.baseUrl = none ∨ config.baseUrl = some "") →
      (defaults.baseUrl = none ∨ defaults.baseUrl = some "") →
      effBaseUrl defaults config = "") ∧
    (∀ n, config.timeout = some n → n ≠ 0 → effTimeout defaults config = some n) ∧
    ((config.timeout = none ∨ config.timeout = some 0) →
      ∀ n, defaults.timeout = some n → n ≠ 0 → effTimeout defaults config = some n) ∧
    ((config.timeout = none ∨ config.timeout = some 0) →
      (defaults.timeout = none ∨ defaults.timeout = some 0) →
      effTimeout defaults config = none) ∧
    (∀ ct, config.contentType = some ct → effContentType defaults config = ct) ∧
    (config.contentType = none →
      ∀ ct, defaults.contentType = some ct → effContentType defaults config = ct) ∧
    (config.contentType = none → defaults.contentType = none →
      effContentType defaults config = .json) ∧
    (∀ f, config.validateStatus = some f → effValidateStatus defaults config = f) ∧
    (config.validateStatus = none →
      ∀ f, defaults.validateStatus = some f → effValidateStatus defaults config = f) ∧
    (config.validateStatus = none → defaults.validateStatus = none →
      effValidateStatus defaults config = defaultValidateStatus) ∧
    (∀ f, config.transformRequest = some f →
      ∀ hs d, jsTruthy d = true →
        applyRequestTransform defaults config hs (some d) = some (f d hs)) ∧
    (config.transformRequest = none →
      ∀ f, defaults.transformRequest = some f →
        ∀ hs d, jsTruthy d = true →
          applyRequestTransform defaults config hs (some d) = some (f d hs)) ∧
    (∀ f, config.transformResponse = some f →
      ∀ b, applyResponseTransform defaults config b = f b) ∧
    (config.transformResponse = none →
      ∀ f, defaults.transformResponse = some f →
        ∀ b, applyResponseTransform defaults config b = f b) ∧
    (∀ k v, (config.params.getD []).lookup k = some v →
      (effParams defaults config).lookup k = some v) ∧
    (∀ k, (config.params.getD []).lookup k = none →
      (effParams defaults config).lookup k = (defaults.params.getD []).lookup k) := by
  refine ⟨?_, ?_, ?_, ?_, ?_, ?_, ?_, ?_, ?_, ?_, ?_, ?_, ?_, ?_, ?_, ?_, ?_, ?_⟩
  · intro s hs hne
    simp [effBaseUrl, jsOrStr, hs, hne]
  · rintro (hc | hc) s hd <;>
      simp [effBaseUrl, jsOrStr, hc, hd, show ("".isEmpty = true) from rfl]
  · rintro (hc | hc) (hd | hd) <;>
      simp [effBaseUrl, jsOrStr, hc, hd, show ("".isEmpty = true) from rfl]
  · intro n hn hne
    simp [effTimeout, jsTruthyNat, jsOrNat, hn, hne]
  · rintro (hc | hc) n hd hne <;>
      simp [effTimeout, jsTruthyNat, jsOrNat, hc, hd, hne]
  · rintro (hc | hc) (hd | hd) <;> simp [effTimeout, jsTruthyNat, jsOrNat, hc, hd]
  · intro ct hc
    simp [effContentType, hc, Option.or]
  · intro hc ct hd
    simp [effContentType, hc, hd, Option.or]
  · intro hc hd
    simp [effContentType, hc, hd, Option.or]
  · intro f hc
    simp [effValidateStatus, hc, Option.or]
  · intro hc f hd
    simp [effValidateStatus, hc, hd, Option.or]
  · intro hc hd
    simp [effValidateStatus, hc, hd, Option.or]
  · intro f hc hs d hd
    simp [applyRequestTransform, hc, hd, Option.or]
  · intro hc f hd hs d htr
    simp [applyRequestTransform, hc, hd, htr, Option.or]
  · intro f hc b
    simp [applyResponseTransform, hc, Option.or]
  · intro hc f hd b
    simp [applyResponseTransform, hc, hd, Option.or]
  · intro k v h
    rw [effParams, spreadMerge_lookup]
    cases hdl : (defaults.params.getD []).lookup k <;> simp [h, hdl]
  · intro k h
    rw [effParams, spreadMerge_lookup]
    cases hdl : (defaults.params.getD []).lookup k <;> simp [h, hdl]

/-- Concrete defaults for the C2 witness. -/
def truthyDefaultsW : FetcherConfig := { baseUrl := some "http://d/", timeout := some 7 }

/-- Concrete per-call config for the C2 witness: falsy `baseUrl` and
`timeout`, explicit content type. -/
def truthyConfigW : FetcherConfig :=
  { baseUrl := some "", timeout := some 0, contentType := some .form }

theorem field_precedence_truthy_witness :
    effBaseUrl truthyDefaultsW truthyConfigW = "http://d/" ∧
      effTimeout truthyDefaultsW truthyConfigW = some 7 ∧
      effContentType truthyDefaultsW truthyConfigW = .form := by
  obtain ⟨h1, h2, h3, h4, h5, h6, h7, hrest⟩ :=
    field_precedence_truthy truthyDefaultsW truthyConfigW
  exact ⟨h2 (Or.inr rfl) "http://d/" rfl, h5 (Or.inr rfl) 7 rfl (by decide), h7 .form rfl⟩

/-- C2 counterexample: per-call `timeout: 0` with default `timeout: 5` —
the timer scheduled by dispatch uses 5, not the supplied falsy per-call
value. -/
theorem precedence_truthiness_counterexample :
    (buildRequest envEcho dfltsTimeout .GET "http://a.com/" none
        { timeout := some 0 }).map (fun p => p.2.timeoutMs) = .ok (some 5) ∧
      ({ timeout := some 0 } : FetcherConfig).timeout = some 0 ∧
      (some 5 : Option Nat) ≠ some 0 :=
  ⟨by rfl, by rfl, by decide⟩

/-- C3: for a non-absolute URL, a configured (truthy) base URL routes
resolution through the environment's standard URL resolver — the target
is exactly its result, and a resolver failure fails the dispatch with the
source's "Invalid URL" error — while with no base URL configured the
literal string is used as given. -/
theorem relative_url_resolution (env : Env) (defaults config : FetcherConfig)
    (url : String) (habs : isAbsoluteUrl url = false) :
    (∀ u, (effBaseUrl defaults config).isEmpty = false →
      env.resolveURL url (effBaseUrl defaults config) = some u →
      resolveTarget env defaults config url = .ok (.url u)) ∧
    ((effBaseUrl defaults config).isEmpty = false →
      env.resolveURL url (effBaseUrl defaults config) = none →
      resolveTarget env defaults config url = .error (.invalidUrl url) ∧
      (∀ method data, buildRequest env defaults method url data config =
        .error (.invalidUrl url)) ∧
      FetchError.message (.invalidUrl url) = "Invalid URL: " ++ url) ∧
    ((effBaseUrl defaults config).isEmpty = true →
      resolveTarget env defaults config url = .ok (.str url)) := by
  refine ⟨?_, ?_, ?_⟩
  · intro u hb hr
    simp [resolveTarget, habs, hb, hr]
  · intro hb hr
    refine ⟨?_, ?_, rfl⟩
    · simp [resolveTarget, habs, hb, hr]
    · intro method data
      simp [buildRequest, resolveTarget, habs, hb, hr]
  · intro hb
    simp [resolveTarget, habs, hb]

/-- Defaults carrying a base URL, for the C3 witness. -/
def baseDefaultsW : FetcherConfig := { baseUrl := some "http://d/" }

theorem relative_url_resolution_witness :
    resolveTarget envEcho baseDefaultsW {} "p" =
      .ok (.url { base := "http://d/p", query := [] }) :=
  (relative_url_resolution envEcho baseDefaultsW {} "p" rfl).1
    { base := "http://d/p", query := [] } rfl rfl

/-- C4: the merged query appended to the URL takes the per-call value on
every colliding key, carries every key of the union exactly once, and
percent-encodes every value (`encPair`); on a plain string target the
dispatcher appends exactly this query after a `?`. -/
theorem query_merge_spec (defaults config : FetcherConfig)
    (d c : List (String × String))
    (hd : defaults.params = some d) (hc : config.params = some c)
    (hnd : (d.map Prod.fst).Nodup) (hnc : (c.map Prod.fst).Nodup) :
    (∀ k v, c.lookup k = some v → (effParams defaults config).lookup k = some v) ∧
    ((effParams defaults config).map Prod.fst).Nodup ∧
    (∀ k, k ∈ (effParams defaults config).map Prod.fst ↔
      k ∈ d.map Prod.fst ∨ k ∈ c.map Prod.fst) ∧
    buildQueryString (effParams defaults config) =
      ampJoin ((effParams defaults config).map encPair) ∧
    (∀ s, appendParams defaults config (.str s) =
      .str (s ++ "?" ++ buildQueryString (effParams defaults config))) := by
  have hep : effParams defaults config = spreadMerge d c := by
    simp [effParams, hd, hc]
  refine ⟨?_, ?_, ?_, ?_, ?_⟩
  · intro k v h
    rw [hep, spreadMerge_lookup]
    cases hdl : d.lookup k <;> simp [h, hdl]
  · rw [hep]
    exact spreadMerge_keys_nodup d c hnd hnc
  · intro k
    rw [hep]
    exact spreadMerge_keys_mem d c k
  · exact buildQueryString_eq_ampJoin _
  · intro s
    simp [appendParams, hc]

/-- Defaults params for the C4 witness. -/
def paramsDefaultsW : FetcherConfig := { params := some [("a", "1"), ("b", "2")] }

/-- Per-call params for the C4 witness, colliding with the defaults on
`b`. -/
def paramsConfigW : FetcherConfig := { params := some [("b", "x y"), ("c", "3")] }

theorem query_merge_spec_witness :
    (effParams paramsDefaultsW paramsConfigW).lookup "b" = some "x y" ∧
      ((effParams paramsDefaultsW paramsConfigW).map Prod.fst).Nodup ∧
      buildQueryString (effParams paramsDefaultsW paramsConfigW) =
        ampJoin ((effParams paramsDefaultsW paramsConfigW).map encPair) := by
  obtain ⟨h1, h2, h3, h4, h5⟩ :=
    query_merge_spec paramsDefaultsW paramsConfigW
      [("a", "1"), ("b", "2")] [("b", "x y"), ("c", "3")] rfl rfl (by decide) (by decide)
  exact ⟨h1 "b" "x y" rfl, h2, h4⟩

/-- Overriding a single-entry record sets that key's value, wherever (and
whether) the key occurred before. -/
theorem spreadMerge_single_lookup (l : List (String × String)) (k v : String) :
    (spreadMerge l [(k, v)]).lookup k = some v := by
  rw [spreadMerge_lookup]
  cases h : l.lookup k <;> simp [List.lookup_cons]

/-- C7: with a truthy per-call token, the header record handed to the
transport maps `Authorization` to `Bearer <token>`, overriding any
`Authorization` entry coming from default or per-call headers. -/
theorem token_header_spec (env : Env) (defaults config : FetcherConfig) (tok : String)
    (htok : config.token = some tok) (hne : tok.isEmpty = false) :
    (mergeHeaders defaults config).lookup "Authorization" = some ("Bearer " ++ tok) ∧
    ("Authorization", "Bearer " ++ tok) ∈ mergeHeaders defaults config ∧
    (∀ method url data u opts,
      buildRequest env defaults method url data config = .ok (u, opts) →
      opts.headers.lookup "Authorization" = some ("Bearer " ++ tok)) := by
  have hm : (mergeHeaders defaults config).lookup "Authorization" =
      some ("Bearer " ++ tok) := by
    simp only [mergeHeaders, htok, hne]
    simp only [Bool.false_eq_true, if_false]
    exact spreadMerge_single_lookup _ _ _
  refine ⟨hm, lookup_mem _ _ _ hm, ?_⟩
  intro method url data u opts h
  cases hres : resolveTarget env defaults config url with
  | error e => simp [buildRequest, hres] at h
  | ok t =>
    simp [buildRequest, hres] at h
    rw [← h.2]
    exact hm

/-- Per-call config carrying a token and a conflicting Authorization
header, for the C7 witness. -/
def tokenConfigW : FetcherConfig :=
  { headers := some [("Authorization", "Basic zzz")], token := some "abc" }

theorem token_header_spec_witness :
    (mergeHeaders {} tokenConfigW).lookup "Authorization" = some ("Bearer " ++ "abc") ∧
      ("Authorization", "Bearer " ++ "abc") ∈ mergeHeaders {} tokenConfigW :=
  ⟨(token_header_spec envEcho {} tokenConfigW "abc" rfl rfl).1,
    (token_header_spec envEcho {} tokenConfigW "abc" rfl rfl).2.1⟩

/-- C8: a present but falsy payload (`0`, `""`, `false`) is sent with no
body and without applying any configured request transform, for every
method. -/
theorem falsy_payload_no_body (defaults config : FetcherConfig)
    (hs : List (String × String)) (v : JsValue) (hv : jsTruthy v = false) :
    applyRequestTransform defaults config hs (some v) = some v ∧
    (∀ ct, mkBody ct (some v) = none) ∧
    (∀ env method url u opts,
      buildRequest env defaults method url (some v) config = .ok (u, opts) →
      opts.body = none) ∧
    (∀ env method url,
      buildRequest env defaults method url (some v)
          { config with transformRequest := none } =
        buildRequest env defaults method url (some v) config) := by
  refine ⟨?_, ?_, ?_, ?_⟩
  · simp [applyRequestTransform, hv]
  · intro ct
    simp [mkBody, hv]
  · intro env method url u opts h
    cases hres : resolveTarget env defaults config url with
    | error e => simp [buildRequest, hres] at h
    | ok t =>
      simp [buildRequest, hres] at h
      rw [← h.2]
      simp [mkBody, applyRequestTransform, hv]
  · intro env method url
    simp [buildRequest, resolveTarget, effBaseUrl, appendParams, effParams,
      mergeHeaders, effContentType, effTimeout, applyRequestTransform, mkBody, hv]

/-- A per-call request transform, for the C8 witness (it must not be
applied to a falsy payload). -/
def transformConfigW : FetcherConfig :=
  { transformRequest := some fun _ _ => .vObj [("x", .pNum 1)] }

theorem falsy_payload_no_body_witness :
    applyRequestTransform {} transformConfigW [] (some (.vPrim (.pNum 0))) =
        some (.vPrim (.pNum 0)) ∧
      mkBody .json (some (.vPrim (.pNum 0))) = none := by
  obtain ⟨h1, h2, h3, h4⟩ :=
    falsy_payload_no_body {} transformConfigW [] (.vPrim (.pNum 0)) rfl
  exact ⟨h1, h2 .json⟩

/-- C5: once the transport has answered, the call succeeds iff the
effective validator accepts the numeric status.  On rejection the call
fails with the status-code error whose message carries the code — with no
assumption on the JSON parser, so the body is never decoded on that
path — and on acceptance (with a decodable body) the call returns an
envelope carrying that status. -/
theorem status_validation_spec (env : Env) (defaults config : FetcherConfig)
    (method : FetchMethod) (url : String) (data : Option JsValue)
    (u : String) (opts : FetchOptions) (resp : RawResponse)
    (henv : env.fetchAvailable = true)
    (hbuild : buildRequest env defaults method url data config = .ok (u, opts))
    (hfetch : env.fetch u opts = .ok resp) :
    (effValidateStatus defaults config resp.status = false →
      Fetcher.request env defaults method url data (some config) =
        .error (.statusError resp.status) ∧
      FetchError.message (.statusError resp.status) =
        "Request failed with status code " ++ toString resp.status) ∧
    (effValidateStatus defaults config resp.status = true →
      (respIsJson resp = true → (env.jsonParse resp.bodyText).isSome = true) →
      ∃ envl, Fetcher.request env defaults method url data (some config) = .ok envl ∧
        envl.status = resp.status) ∧
    (∀ envl, Fetcher.request env defaults method url data (some config) = .ok envl →
      effValidateStatus defaults config resp.status = true) := by
  refine ⟨?_, ?_, ?_⟩
  · intro hv
    exact ⟨by simp [Fetcher.request, henv, hbuild, hfetch, hv], rfl⟩
  · intro hv hdec
    cases hjson : respIsJson resp with
    | false =>
      have hr : Fetcher.request env defaults method url data (some config) =
          .ok { data := applyResponseTransform defaults config (.vPrim (.pStr resp.bodyText))
                status := resp.status
                statusText := resp.statusText
                headers := fromEntries resp.headers
                config := config
                request := resp } := by
        simp [Fetcher.request, henv, hbuild, hfetch, hv, decodeBody, hjson]
      exact ⟨_, hr, rfl⟩
    | true =>
      obtain ⟨w, hw⟩ := Option.isSome_iff_exists.mp (hdec hjson)
      have hr : Fetcher.request env defaults method url data (some config) =
          .ok { data := applyResponseTransform defaults config w
                status := resp.status
                statusText := resp.statusText
                headers := fromEntries resp.headers
                config := config
                request := resp } := by
        simp [Fetcher.request, henv, hbuild, hfetch, hv, decodeBody, hjson, hw]
      exact ⟨_, hr, rfl⟩
  · intro envl h
    cases hv : effValidateStatus defaults config resp.status with
    | true => rfl
    | false => simp [Fetcher.request, henv, hbuild, hfetch, hv] at h

theorem status_validation_spec_witness :
    Fetcher.request env404 {} .GET "http://a.com/" none (some {}) =
        .error (.statusError 404) ∧
      FetchError.message (.statusError 404) = "Request failed with status code " ++
        toString 404 :=
  (status_validation_spec env404 {} {} .GET "http://a.com/" none "http://a.com/"
      { method := .GET, headers := [("Content-Type", "application/json")] }
      { status := 404, statusText := "Not Found", headers := [], bodyText := "" }
      rfl (by rfl) (by rfl)).1 (by rfl)

/-- C6: a truthy payload, with no request transform configured, is
serialized into the transport body as form data exactly when the
effective content type is `application/x-www-form-urlencoded`, and as
JSON text otherwise. -/
theorem body_serialization_spec (env : Env) (defaults config : FetcherConfig)
    (method : FetchMethod) (url : String) (v : JsValue)
    (htrc : config.transformRequest = none) (htrd : defaults.transformRequest = none)
    (hv : jsTruthy v = true) (u : String) (opts : FetchOptions)
    (hbuild : buildRequest env defaults method url (some v) config = .ok (u, opts)) :
    opts.body = some (match effContentType defaults config with
      | .form => formSerializeValue v
      | .json => jsonStringifyJs v) := by
  cases hres : resolveTarget env defaults config url with
  | error e => simp [buildRequest, hres] at hbuild
  | ok t =>
    simp [buildRequest, hres] at hbuild
    rw [← hbuild.2]
    simp only [applyRequestTransform, htrc, htrd, Option.or, hv, if_true]
    cases hct : effContentType defaults config <;> simp [mkBody, hv, hct]

/-- A per-call config selecting the form content type, for the C6
witness. -/
def formConfigW : FetcherConfig := { contentType := some .form }

/-- The payload of the C6 witness. -/
def objPayloadW : JsValue := .vObj [("a", .pStr "b c")]

/-- The transport options produced for the C6 witness call. -/
def formOptsW : FetchOptions :=
  { method := .POST
    headers := [("Content-Type", "application/x-www-form-urlencoded")]
    body := some "a=b+c"
    timeoutMs := none }

theorem body_serialization_spec_witness :
    formOptsW.body = some (match effContentType {} formConfigW with
      | .form => formSerializeValue objPayloadW
      | .json => jsonStringifyJs objPayloadW) :=
  body_serialization_spec envEcho {} formConfigW .POST "http://a.com/" objPayloadW
    rfl rfl rfl "http://a.com/" formOptsW (by rfl)
